import Mathlib

/-
Verification of the tool-calling agent core of this repository: a shallow
embedding of core/agent.py (Agent.run, Agent._parse_response,
Agent.execute_tool, Agent._format_tool_result), core/models.py (Role,
Message, AssistantResponse) and core/tool.py (ToolUse, Tool).

Conventions of the embedding:
- Parsed JSON values are modelled by the mutual inductive Json / JList /
  JFields below.  Python dicts keep insertion order with last-value-wins
  on duplicate keys (JFields.insertPy).
- Python exceptions are modelled by Except String; the error string is the
  str() of the exception.
- json.loads is modelled by tryLoadJson, a fuel-based recursive-descent
  parser following CPython's json/decoder.py (strict mode, default hooks):
  whitespace is " \t\n\r"; numbers follow the NUMBER_RE regex with
  integer-part "0 | [1-9][0-9]*"; NaN / Infinity / -Infinity are accepted;
  strings accept the escapes \" \\ \/ \b \f \n \r \t \uXXXX with surrogate
  pair combination.  Fuel exhaustion returns failure, matching Python's
  RecursionError (caught by the caller's except) on absurdly nested input;
  the fuel bound is generous enough that it is never reached on input the
  Python decoder accepts within its recursion limit.  Two known
  approximations, both documented where they occur: a lone surrogate
  becomes an unrepresentable scalar (mapped to NUL), and the str()/repr()
  of a parsed JSON float keeps the source lexeme instead of the IEEE-754
  shortest round-trip representation.
- The model provider (providers/*) is an external collaborator and is
  modelled as an opaque function gen : List Message -> Except String String.
- The conversation logger (utils/conversation_logger.py) is a
  fire-and-forget sink with no influence on control flow and is omitted.
-/

/-- Numeric payload of a parsed JSON number.  json.loads yields a Python
int when the token has no fraction and no exponent, otherwise a float;
NaN / Infinity / -Infinity come from parse_constant. -/
inductive JNum where
  | int (n : Int)
  | float (lex : String)
  | nan
  | inf (neg : Bool)

mutual
/-- A Python value produced by json.loads. -/
inductive Json where
  | null
  | bool (b : Bool)
  | num (n : JNum)
  | str (s : String)
  | arr (elems : JList)
  | obj (fields : JFields)
/-- A Python list of JSON values. -/
inductive JList where
  | nil
  | cons (hd : Json) (tl : JList)
/-- A Python dict with string keys, in insertion order. -/
inductive JFields where
  | nil
  | cons (key : String) (val : Json) (tl : JFields)
end

def JList.toList : JList → List Json
  | .nil => []
  | .cons h t => h :: t.toList

def JList.ofList : List Json → JList
  | [] => .nil
  | h :: t => .cons h (JList.ofList t)

def JFields.keys : JFields → List String
  | .nil => []
  | .cons k _ t => k :: t.keys

/-- Python dict item assignment: an existing key keeps its position and
gets the new value, a new key is appended.  This is how the decoder's
dict(pairs) treats duplicate keys (last value wins, first position). -/
def JFields.insertPy : JFields → String → Json → JFields
  | .nil, k, v => .cons k v .nil
  | .cons k0 v0 t, k, v =>
    if k0 = k then .cons k0 v t else .cons k0 v0 (t.insertPy k v)

/-- Python dict .get(key): the stored value, or absent. -/
def JFields.get : JFields → String → Option Json
  | .nil, _ => none
  | .cons k v t, key => if k = key then some v else t.get key

def Json.isObjB : Json → Bool
  | .obj _ => true
  | _ => false

/-  Character constants used to build string literals.  -/
def quoteChar : Char := Char.ofNat 34
def backslashChar : Char := Char.ofNat 92
def apostChar : Char := Char.ofNat 39
def openBrace : Char := Char.ofNat 123
def closeBrace : Char := Char.ofNat 125
def braceOpenS : String := String.singleton openBrace
def braceCloseS : String := String.singleton closeBrace

/-- bool(x) for a parsed JSON number: zero is falsy.  A float token is
zero exactly when its mantissa (the part before any exponent) has no
nonzero digit; nan and the infinities are truthy. -/
def JNum.isZero : JNum → Bool
  | .int n => n == 0
  | .float lex =>
    (lex.data.takeWhile (fun c => !(c == 'e' || c == 'E'))).all
      (fun c => !(c.isDigit && !(c == '0')))
  | .nan => false
  | .inf _ => false

/-- The Python type name of a number, as it appears in TypeError text. -/
def JNum.pyTypeName : JNum → String
  | .int _ => "int"
  | _ => "float"

/-- Python truthiness of a parsed JSON value. -/
def jTruthy : Json → Bool
  | .null => false
  | .bool b => b
  | .num n => !n.isZero
  | .str s => !(s == "")
  | .arr .nil => false
  | .arr _ => true
  | .obj .nil => false
  | .obj _ => true

/-- Python `a or b` over optional values, where a missing key (dict.get
returning None) is falsy. -/
def pyOrJ (a b : Option Json) : Option Json :=
  match a with
  | some v => if jTruthy v then some v else b
  | none => b

/-- Python `v == s` for a string literal s: true only for an equal str. -/
def jEqStr (v : Json) (s : String) : Bool :=
  match v with
  | .str t => t == s
  | _ => false

def isStrVal (v : Option Json) (s : String) : Bool :=
  match v with
  | some (.str t) => t == s
  | _ => false

/-- iter(x) as used by `for entry in tool_entries`: lists iterate their
elements, strings their one-character substrings, dicts their keys;
numbers and booleans raise TypeError. -/
def pyIter : Json → Except String (List Json)
  | .arr xs => .ok xs.toList
  | .str s => .ok (s.data.map (fun c => Json.str (String.singleton c)))
  | .obj fs => .ok (fs.keys.map Json.str)
  | .num n => .error ("\x27" ++ n.pyTypeName ++ "\x27 object is not iterable")
  | .bool _ => .error "\x27bool\x27 object is not iterable"
  | .null => .error "\x27NoneType\x27 object is not iterable"

def pyHexDigit (n : Nat) : Char :=
  if n < 10 then Char.ofNat (48 + n) else Char.ofNat (87 + (n - 10))

def pyHex2 (n : Nat) : String :=
  String.mk [pyHexDigit (n / 16 % 16), pyHexDigit (n % 16)]

def pyHex4 (n : Nat) : String :=
  String.mk [pyHexDigit (n / 4096 % 16), pyHexDigit (n / 256 % 16),
    pyHexDigit (n / 16 % 16), pyHexDigit (n % 16)]

/-- str() of a parsed JSON number.  ints render exactly as Python does
(the JSON grammar forbids leading zeros, and "-0" parses to int 0, so the
canonical Int rendering agrees).  For floats Python prints the shortest
round-trip decimal of the IEEE-754 double; that rounding is not modelled
here and the source lexeme is kept verbatim (exact whenever the lexeme is
already that shortest form, e.g. "1.5"). -/
def JNum.pyStr : JNum → String
  | .int n => toString n
  | .float lex => lex
  | .nan => "nan"
  | .inf false => "inf"
  | .inf true => "-inf"

/-- One character of repr() of a Python str, given the chosen quote.
ASCII-exact; characters at 0x80 and above are kept verbatim (Python
escapes the non-printable ones, a distinction not modelled). -/
def pyReprStrChar (q : Char) (c : Char) : String :=
  if c = backslashChar then String.mk [backslashChar, backslashChar]
  else if c = q then String.mk [backslashChar, q]
  else if c = '\n' then String.mk [backslashChar, 'n']
  else if c = '\r' then String.mk [backslashChar, 'r']
  else if c = '\t' then String.mk [backslashChar, 't']
  else if c.toNat < 0x20 || c.toNat == 0x7f then
    String.mk [backslashChar, 'x'] ++ pyHex2 c.toNat
  else String.singleton c

/-- repr() of a Python str: single-quoted, switching to double quotes when
the text has an apostrophe but no double quote. -/
def pyReprStr (s : String) : String :=
  let q := if s.data.contains apostChar && !(s.data.contains quoteChar)
    then quoteChar else apostChar
  String.singleton q ++ String.join (s.data.map (pyReprStrChar q)) ++ String.singleton q

mutual
/-- repr() of a parsed JSON value (containers render their elements with
repr, as Python does). -/
def pyReprJ : Json → String
  | .null => "None"
  | .bool true => "True"
  | .bool false => "False"
  | .num n => n.pyStr
  | .str s => pyReprStr s
  | .arr xs => "[" ++ pyReprElems xs ++ "]"
  | .obj fs => braceOpenS ++ pyReprFields fs ++ braceCloseS
def pyReprElems : JList → String
  | .nil => ""
  | .cons h .nil => pyReprJ h
  | .cons h t => pyReprJ h ++ ", " ++ pyReprElems t
def pyReprFields : JFields → String
  | .nil => ""
  | .cons k v .nil => pyReprStr k ++ ": " ++ pyReprJ v
  | .cons k v t => pyReprStr k ++ ": " ++ pyReprJ v ++ ", " ++ pyReprFields t
end

/-- str() of a parsed JSON value: a str is itself, everything else
renders via repr. -/
def pyStr : Json → String
  | .str s => s
  | j => pyReprJ j

/-- The JSON decoder's whitespace skip (WHITESPACE matches " \t\n\r"). -/
def jws (cs : List Char) : List Char :=
  cs.dropWhile (fun c => c == ' ' || c == '\t' || c == '\n' || c == '\r')

def hexVal (c : Char) : Option Nat :=
  if c.isDigit then some (c.toNat - 48)
  else if 'a' ≤ c && c ≤ 'f' then some (c.toNat - 87)
  else if 'A' ≤ c && c ≤ 'F' then some (c.toNat - 55)
  else none

def hex4 (a b c d : Char) : Option Nat :=
  match hexVal a, hexVal b, hexVal c, hexVal d with
  | some x, some y, some z, some w => some (x * 4096 + y * 256 + z * 16 + w)
  | _, _, _, _ => none

/-- Escape table for backslash escapes inside a JSON string (py_scanstring
BACKSLASH); an unlisted escape character raises, modelled by none. -/
def jsonEscMap (e : Char) : Option Char :=
  if e = quoteChar then some quoteChar
  else if e = backslashChar then some backslashChar
  else if e = '/' then some '/'
  else if e = 'b' then some (Char.ofNat 8)
  else if e = 'f' then some (Char.ofNat 12)
  else if e = 'n' then some '\n'
  else if e = 'r' then some '\r'
  else if e = 't' then some '\t'
  else none

/-- py_scanstring after the opening quote, in strict mode: unescaped
control characters raise; \uXXXX escapes decode with surrogate-pair
combination (a high surrogate followed by \uDC00..\uDFFF merges; any
other lone surrogate stays alone - such a scalar cannot live in a Lean
Char and Char.ofNat maps it to NUL, a documented approximation).  Returns
the decoded characters and the remainder after the closing quote. -/
def parseChars : Nat → List Char → Option (List Char × List Char)
  | 0, _ => none
  | fuel + 1, cs =>
    match cs with
    | [] => none
    | c :: rest =>
      if c = quoteChar then some ([], rest)
      else if c = backslashChar then
        match rest with
        | [] => none
        | e :: r2 =>
          if e = 'u' then
            match r2 with
            | h1 :: h2 :: h3 :: h4 :: r3 =>
              match hex4 h1 h2 h3 h4 with
              | none => none
              | some n =>
                if 0xD800 ≤ n && n ≤ 0xDBFF then
                  match r3 with
                  | b1 :: u1 :: g1 :: g2 :: g3 :: g4 :: r4 =>
                    if b1 = backslashChar && u1 = 'u' then
                      match hex4 g1 g2 g3 g4 with
                      | none => none
                      | some m =>
                        if 0xDC00 ≤ m && m ≤ 0xDFFF then
                          (parseChars fuel r4).map (fun p =>
                            (Char.ofNat (0x10000 + (n - 0xD800) * 0x400 + (m - 0xDC00)) :: p.1, p.2))
                        else
                          (parseChars fuel r3).map (fun p => (Char.ofNat n :: p.1, p.2))
                    else (parseChars fuel r3).map (fun p => (Char.ofNat n :: p.1, p.2))
                  | _ => (parseChars fuel r3).map (fun p => (Char.ofNat n :: p.1, p.2))
                else (parseChars fuel r3).map (fun p => (Char.ofNat n :: p.1, p.2))
            | _ => none
          else
            match jsonEscMap e with
            | none => none
            | some ec => (parseChars fuel r2).map (fun p => (ec :: p.1, p.2))
      else if c.toNat < 0x20 then none
      else (parseChars fuel rest).map (fun p => (c :: p.1, p.2))

def spanDigits (cs : List Char) : List Char × List Char :=
  (cs.takeWhile Char.isDigit, cs.dropWhile Char.isDigit)

def digitsToNat (ds : List Char) : Nat :=
  ds.foldl (fun a c => a * 10 + (c.toNat - 48)) 0

/-- The decoder's NUMBER_RE match at the start of the input: an optional
minus, an integer part "0 | [1-9][0-9]*", an optional ".digits" fraction
and an optional "[eE][+-]?digits" exponent, each optional group consumed
only when complete.  No fraction and no exponent gives a Python int,
otherwise a float (lexeme kept). -/
def parseNum (cs : List Char) : Option (Json × List Char) :=
  let p0 : Bool × List Char :=
    match cs with
    | c :: r => if c = '-' then (true, r) else (false, cs)
    | [] => (false, cs)
  let neg := p0.1
  match p0.2 with
  | [] => none
  | c :: r =>
    if !c.isDigit then none
    else
      let p1 := if c = '0' then ([c], r) else spanDigits (c :: r)
      let intDs := p1.1
      let rest1 := p1.2
      let p2 : List Char × List Char :=
        match rest1 with
        | d :: r2 =>
          if d = '.' then
            let q := spanDigits r2
            if q.1 = [] then ([], rest1) else (q.1, q.2)
          else ([], rest1)
        | [] => ([], rest1)
      let fracDs := p2.1
      let rest2 := p2.2
      let p3 : List Char × List Char :=
        match rest2 with
        | d :: r2 =>
          if d = 'e' || d = 'E' then
            match r2 with
            | s0 :: r3 =>
              if s0 = '+' || s0 = '-' then
                let q := spanDigits r3
                if q.1 = [] then ([], rest2) else (d :: s0 :: q.1, q.2)
              else
                let q := spanDigits r2
                if q.1 = [] then ([], rest2) else (d :: q.1, q.2)
            | [] => ([], rest2)
          else ([], rest2)
        | [] => ([], rest2)
      let expCs := p3.1
      let rest3 := p3.2
      if fracDs = [] && expCs = [] then
        let n : Int := Int.ofNat (digitsToNat intDs)
        some (.num (.int (if neg then -n else n)), rest1)
      else
        let lex := (if neg then ['-'] else []) ++ intDs ++
          (if fracDs = [] then [] else '.' :: fracDs) ++ expCs
        some (.num (.float (String.mk lex)), rest3)

/-- Parser state: a value, an object body after its opening brace, the
member list of an object, an array body after its opening bracket, or
the element list of an array.  The modes of one mutual descent are merged
into one fuel-indexed function so that every recursive call is plainly
structural and kernel-reducible. -/
inductive PMode where
  | value (cs : List Char)
  | objBody (cs : List Char)
  | members (acc : JFields) (cs : List Char)
  | arrBody (cs : List Char)
  | elems (acc : List Json) (cs : List Char)

/-- The recursive descent of json/decoder.py (scan_once, JSONObject,
JSONArray), strict mode, default hooks.  Failure (None) models a raised
ValueError. -/
def parseCore : Nat → PMode → Option (Json × List Char)
  | 0, _ => none
  | fuel + 1, mode =>
    match mode with
    | .value cs =>
      match cs with
      | [] => none
      | c :: rest =>
        if c = openBrace then parseCore fuel (.objBody (jws rest))
        else if c = '[' then parseCore fuel (.arrBody (jws rest))
        else if c = quoteChar then
          (parseChars (rest.length + 1) rest).map (fun p => (.str (String.mk p.1), p.2))
        else if c = 't' then
          match rest with
          | 'r' :: 'u' :: 'e' :: r => some (.bool true, r)
          | _ => none
        else if c = 'f' then
          match rest with
          | 'a' :: 'l' :: 's' :: 'e' :: r => some (.bool false, r)
          | _ => none
        else if c = 'n' then
          match rest with
          | 'u' :: 'l' :: 'l' :: r => some (.null, r)
          | _ => none
        else if c = 'N' then
          match rest with
          | 'a' :: 'N' :: r => some (.num .nan, r)
          | _ => none
        else if c = 'I' then
          match rest with
          | 'n' :: 'f' :: 'i' :: 'n' :: 'i' :: 't' :: 'y' :: r => some (.num (.inf false), r)
          | _ => none
        else if c = '-' then
          match rest with
          | 'I' :: 'n' :: 'f' :: 'i' :: 'n' :: 'i' :: 't' :: 'y' :: r => some (.num (.inf true), r)
          | _ => parseNum cs
        else parseNum cs
    | .objBody cs =>
      match cs with
      | [] => none
      | c :: rest =>
        if c = closeBrace then some (.obj .nil, rest)
        else parseCore fuel (.members .nil cs)
    | .members acc cs =>
      match cs with
      | [] => none
      | c :: rest =>
        if c = quoteChar then
          match parseChars (rest.length + 1) rest with
          | none => none
          | some (key, r1) =>
            match jws r1 with
            | ':' :: r2 =>
              match parseCore fuel (.value (jws r2)) with
              | none => none
              | some (v, r3) =>
                let acc2 := acc.insertPy (String.mk key) v
                match jws r3 with
                | [] => none
                | d :: r4 =>
                  if d = ',' then
                    match jws r4 with
                    | cs2 => parseCore fuel (.members acc2 cs2)
                  else if d = closeBrace then some (.obj acc2, r4)
                  else none
            | _ => none
        else none
    | .arrBody cs =>
      match cs with
      | ']' :: rest => some (.arr .nil, rest)
      | _ => parseCore fuel (.elems [] cs)
    | .elems acc cs =>
      match parseCore fuel (.value cs) with
      | none => none
      | some (v, r1) =>
        match jws r1 with
        | ',' :: r2 => parseCore fuel (.elems (v :: acc) (jws r2))
        | ']' :: r2 => some (.arr (JList.ofList (v :: acc).reverse), r2)
        | _ => none

/-- The parser's local try_load_json: json.loads(text) on success, None on
any exception.  Leading and trailing decoder whitespace is allowed and
anything further after the value is "Extra data" (an error). -/
def tryLoadJson (s : String) : Option Json :=
  match parseCore (8 * (s.length + 1)) (.value (jws s.data)) with
  | none => none
  | some (v, rest) => if jws rest = [] then some v else none

/-- Python str.strip() with no argument.  The ASCII whitespace characters
are handled exactly; the few non-ASCII Unicode space characters Python
also strips are not modelled. -/
def pyIsSpaceChar (c : Char) : Bool :=
  c == ' ' || c == '\t' || c == '\n' || c == '\r' || c == '\x0b' || c == '\x0c'

def pyStrip (s : String) : String :=
  String.mk (((s.data.dropWhile pyIsSpaceChar).reverse.dropWhile pyIsSpaceChar).reverse)

/-- re.search of the brace-scan fallback pattern: the match, when one
exists, runs from the first opening brace to the last closing brace of the
whole text (the class inside matches every character and is greedy), and
a match needs the last closing brace strictly after the first opening
brace. -/
def braceSubstring (s : String) : Option String :=
  let cs := s.data
  match cs.findIdx? (fun c => c == openBrace) with
  | none => none
  | some i =>
    match cs.reverse.findIdx? (fun c => c == closeBrace) with
    | none => none
    | some rj =>
      let j := cs.length - 1 - rj
      if i < j then some (String.mk ((cs.drop i).take (j - i + 1))) else none

/-- core/tool.py ToolUse.  The Python dataclass stores whatever the parser
extracted, so name and params are parsed JSON values (the parser only
checks truthiness of name, not that it is a string).  The dataclass's
constant `type` field ("tool_use") carries no information and is omitted;
the streaming flag (Python field named partial) is partialFlag here. -/
structure ToolUse where
  name : Json
  params : Json
  partialFlag : Bool

/-- core/models.py AssistantResponse: a text reply or a tool-use request.
The Python constructor rejects any other combination (and an empty
tool-use list) with ValueError, so these two shapes are the only
inhabitants. -/
inductive AssistantResponse where
  | text (value : String)
  | toolUse (uses : List ToolUse)

/-- Lines 232-239 of core/agent.py: direct json.loads of the stripped text,
then the brace-scan fallback on the raw text. -/
def obtainedData (response_text : String) : Option Json :=
  match tryLoadJson (pyStrip response_text) with
  | some d => some d
  | none =>
    match braceSubstring response_text with
    | some sub => tryLoadJson sub
    | none => none

/-- Line 254 of core/agent.py:
tool_entries = data.get("tool_uses") or data.get("tool_calls") or []. -/
def selectedEntries (fs : JFields) : Json :=
  (pyOrJ (pyOrJ (fs.get "tool_uses") (fs.get "tool_calls")) (some (.arr .nil))).getD (.arr .nil)

/-- One iteration of the entry loop in _parse_response (lines 256-263):
non-dict entries are skipped, name comes from key "name" (required,
truthiness-checked), params from "params" or "arguments" with default
empty dict, the streaming flag from "partial" with default False. -/
def toolUseOfEntry : Json → Option ToolUse
  | .obj ef =>
    let name := (ef.get "name").getD .null
    let params := (pyOrJ (pyOrJ (ef.get "params") (ef.get "arguments")) (some (.obj .nil))).getD (.obj .nil)
    let pf := jTruthy ((ef.get "partial").getD (.bool false))
    if jTruthy name then some ⟨name, params, pf⟩ else none
  | _ => none

/-- The entry loop of _parse_response: tool_uses starts empty and each
accepted entry is appended in iteration order (the appended singleton is
the accepted invocation, nothing for a skipped or dropped entry). -/
def extractToolUses (entries : List Json) : List ToolUse :=
  entries.foldl (fun acc entry => acc ++ (toolUseOfEntry entry).toList) []

/-- Agent._parse_response (core/agent.py lines 215-269).  A returned
Except.error models an exception escaping the method: the only raising
spot is `for entry in tool_entries` when the selected entries value is a
truthy non-iterable (a number or True); everything else degrades to a
text response of the stripped raw text. -/
def parse_response (response_text : String) : Except String AssistantResponse :=
  match obtainedData response_text with
  | none => .ok (.text (pyStrip response_text))
  | some d =>
    match d with
    | .obj fs =>
      let response_type := pyOrJ (fs.get "type") (fs.get "response_type")
      if isStrVal response_type "text" then
        .ok (.text (pyStrip (pyStr ((fs.get "text").getD (.str "")))))
      else if isStrVal response_type "tool_use" || isStrVal response_type "tool" then
        match pyIter (selectedEntries fs) with
        | .error e => .error e
        | .ok entries =>
          let tool_uses := extractToolUses entries
          if tool_uses.isEmpty then .ok (.text (pyStrip response_text))
          else .ok (.toolUse tool_uses)
      else .ok (.text (pyStrip response_text))
    | _ => .ok (.text (pyStrip response_text))

/-- One escaped character of json.dumps with default ensure_ascii: the
characters from space to tilde pass through except quote and backslash;
everything else is escaped, control characters by their short escapes or
\u00XX, astral characters as a surrogate pair. -/
def jsonEscChar (c : Char) : String :=
  if c = quoteChar then String.mk [backslashChar, quoteChar]
  else if c = backslashChar then String.mk [backslashChar, backslashChar]
  else if c = '\n' then String.mk [backslashChar, 'n']
  else if c = '\t' then String.mk [backslashChar, 't']
  else if c = '\r' then String.mk [backslashChar, 'r']
  else if c = Char.ofNat 8 then String.mk [backslashChar, 'b']
  else if c = Char.ofNat 12 then String.mk [backslashChar, 'f']
  else if c.toNat < 0x20 || c.toNat > 0x7e then
    if c.toNat ≤ 0xFFFF then String.mk [backslashChar, 'u'] ++ pyHex4 c.toNat
    else
      let v := c.toNat - 0x10000
      String.mk [backslashChar, 'u'] ++ pyHex4 (0xD800 + v / 0x400) ++
        String.mk [backslashChar, 'u'] ++ pyHex4 (0xDC00 + v % 0x400)
  else String.singleton c

def jsonEscStr (s : String) : String :=
  String.singleton quoteChar ++ String.join (s.data.map jsonEscChar) ++ String.singleton quoteChar

def indentStr (lvl : Nat) : String := String.mk (List.replicate (2 * lvl) ' ')

mutual
/-- json.dumps(value, indent=2) at a nesting level: empty containers stay
on one line, non-empty ones put each item on its own indented line with
the default item separator "," and key separator ": ".  Floats keep their
parsed lexeme (same documented approximation as JNum.pyStr). -/
def dumps2 (lvl : Nat) : Json → String
  | .null => "null"
  | .bool true => "true"
  | .bool false => "false"
  | .num (.int n) => toString n
  | .num (.float lex) => lex
  | .num .nan => "NaN"
  | .num (.inf false) => "Infinity"
  | .num (.inf true) => "-Infinity"
  | .str s => jsonEscStr s
  | .arr .nil => "[]"
  | .arr xs => "[\n" ++ dumps2Elems (lvl + 1) xs ++ "\n" ++ indentStr lvl ++ "]"
  | .obj .nil => braceOpenS ++ braceCloseS
  | .obj fs => braceOpenS ++ "\n" ++ dumps2Fields (lvl + 1) fs ++ "\n" ++ indentStr lvl ++ braceCloseS
def dumps2Elems (lvl : Nat) : JList → String
  | .nil => ""
  | .cons h .nil => indentStr lvl ++ dumps2 lvl h
  | .cons h t => indentStr lvl ++ dumps2 lvl h ++ ",\n" ++ dumps2Elems lvl t
def dumps2Fields (lvl : Nat) : JFields → String
  | .nil => ""
  | .cons k v .nil => indentStr lvl ++ jsonEscStr k ++ ": " ++ dumps2 lvl v
  | .cons k v t => indentStr lvl ++ jsonEscStr k ++ ": " ++ dumps2 lvl v ++ ",\n" ++ dumps2Fields lvl t
end

def pyJsonDumpsIndent2 (j : Json) : String := dumps2 0 j

/-- A value returned by a tool, as Agent._format_tool_result distinguishes
them: an object exposing to_dict() (rendered as pretty JSON of that
dict), a plain dict or list (rendered as pretty JSON), or anything else
(rendered by its str(), carried here directly since concrete tool return
values are external to the core). -/
inductive PyVal where
  | plain (strRep : String)
  | jsonLike (value : Json)
  | withToDict (dict : Json)

/-- Agent._format_tool_result (core/agent.py lines 362-391).  The except
branches around json.dumps are unreachable in the model because every
modelled value is serializable. -/
def format_tool_result : PyVal → String
  | .withToDict d => pyJsonDumpsIndent2 d
  | .jsonLike v => pyJsonDumpsIndent2 v
  | .plain s => s

/-- core/tool.py Tool.  A tool either carries a function (modelled as a
map from the params value to a result or a raised exception's str(),
absorbing Python's keyword-expansion and any error the function raises)
or has none; the parameters dict only feeds prompt strings and is
omitted. Subclasses overriding execute() are outside these claims. -/
structure Tool where
  name : String
  description : String
  function : Option (Json → Except String PyVal)

/-- Tool.execute after its name-mismatch guard (core/tool.py lines 57-72):
no function raises NotImplementedError, otherwise the function is applied
to the invocation's params (the streaming-flag branch is a no-op). -/
def Tool.executeBody (t : Tool) (tu : ToolUse) : Except String PyVal :=
  match t.function with
  | none => .error ("Tool \x27" ++ t.name ++ "\x27 has no function provided and execute() was not overridden. Either provide a function in __init__ or override execute() in a subclass.")
  | some f => f tu.params

/-- Tool.execute (core/tool.py lines 36-72), including the guard at lines
54-55 raising ValueError when the invocation's name is not this tool's
name. -/
def Tool.execute (t : Tool) (tu : ToolUse) : Except String PyVal :=
  if jEqStr tu.name t.name then t.executeBody tu
  else .error ("Tool name mismatch: expected " ++ t.name ++ ", got " ++ pyStr tu.name)

/-- Agent.execute_tool (core/agent.py lines 393-412): resolve the first
tool whose name equals the invocation's name, raising ValueError when
none matches. -/
def execute_tool (tools : List Tool) (tu : ToolUse) : Except String PyVal :=
  match tools.find? (fun t => jEqStr tu.name t.name) with
  | none => .error ("Tool \x27" ++ pyStr tu.name ++ "\x27 not found in agent\x27s tool list")
  | some t => t.execute tu

/-- core/models.py Role. -/
inductive Role where
  | user
  | assistant
  | system
deriving DecidableEq

/-- core/models.py Message. -/
structure Message where
  role : Role
  content : String
  image_path : Option String
deriving DecidableEq

/-- How one call to Agent.run ends: a returned Message, or an exception
escaping the method. -/
inductive RunReply where
  | msg (m : Message)
  | exn (e : String)
deriving DecidableEq

/-- Observable outcome of Agent.run: the conversation history after the
call (Python mutates self.conversation_history in place, so it is
meaningful even when an exception escapes), the number of provider calls
made, and how the call ended. -/
structure RunOutcome where
  conversation_history : List Message
  model_calls : Nat
  reply : RunReply
deriving DecidableEq

/-- The body of the per-invocation loop at core/agent.py lines 92-103: the
success line "name: formatted result" or the failure line
"name: Error - message", with the invocation's name rendered by the
f-string (str()). -/
def tool_result_line (tools : List Tool) (tu : ToolUse) : String :=
  match execute_tool tools tu with
  | .ok result => pyStr tu.name ++ ": " ++ format_tool_result result
  | .error e => pyStr tu.name ++ ": Error - " ++ e

/-- The tool_results list of core/agent.py lines 91-103: starts empty, one
line appended per invocation in order. -/
def tool_results (tools : List Tool) (tool_uses : List ToolUse) : List String :=
  tool_uses.foldl (fun acc tu => acc ++ [tool_result_line tools tu]) []

/-- Agent._generate_response_from_history (core/agent.py lines 130-174)
with the provider call abstracted as gen (the system prompt and the tools
description are fixed per agent and absorbed into gen): an empty history
short-circuits before calling the provider, a provider exception becomes
the "Error calling LLM API" text, otherwise the raw text is parsed. -/
def generate_response_from_history (gen : List Message → Except String String)
    (history : List Message) : Except String AssistantResponse :=
  match history.getLast? with
  | none => .ok (.text "No messages in conversation history.")
  | some _ =>
    match gen history with
    | .error e => .ok (.text ("Error calling LLM API: " ++ e))
    | .ok response_text => parse_response response_text

/-- The message built and returned when the iteration cap is exhausted
(core/agent.py lines 122-125). -/
def max_iterations_message (max_iterations : Nat) : Message :=
  ⟨Role.assistant,
   "Maximum tool execution iterations (" ++ toString max_iterations ++ ") reached. The agent may be stuck in a loop.",
   none⟩

/-- The while loop of Agent.run (core/agent.py lines 71-128), with the
remaining iteration budget as fuel.  A text response is appended and
returned; a tool-use response appends the single synthetic results
message and continues; a parse exception escapes with the history as
mutated so far.  The provider-call counter only advances when the history
is non-empty (the short-circuit in _generate_response_from_history).  The
"Unknown response type" fallback at lines 114-119 is unreachable because
AssistantResponse has exactly the two shapes. -/
def run_loop (tools : List Tool) (gen : List Message → Except String String)
    (max_iterations : Nat) : List Message → Nat → Nat → RunOutcome
  | history, calls, 0 =>
    let m := max_iterations_message max_iterations
    ⟨history ++ [m], calls, .msg m⟩
  | history, calls, fuel + 1 =>
    let calls2 := if history.isEmpty then calls else calls + 1
    match generate_response_from_history gen history with
    | .error e => ⟨history, calls2, .exn e⟩
    | .ok (.text v) =>
      let m : Message := ⟨Role.assistant, v, none⟩
      ⟨history ++ [m], calls2, .msg m⟩
    | .ok (.toolUse tool_uses) =>
      let content := "Tool execution results:\n" ++ String.intercalate "\n" (tool_results tools tool_uses)
      run_loop tools gen max_iterations (history ++ [⟨Role.assistant, content, none⟩]) calls2 fuel

/-- Agent.run (core/agent.py lines 39-128).  The incoming messages are
appended to the history first (line 63); only then is the history
scanned for a user message, returning the fixed apology without a
provider call when there is none (lines 66-68; that reply is returned
without being appended). -/
def Agent.run (tools : List Tool) (gen : List Message → Except String String)
    (history : List Message) (messages : List Message) (max_iterations : Nat) : RunOutcome :=
  let history2 := history ++ messages
  if messages.any (fun m => decide (m.role = Role.user)) then
    run_loop tools gen max_iterations history2 0 max_iterations
  else
    ⟨history2, 0, .msg ⟨Role.assistant, "I didn\x27t receive any user messages.", none⟩⟩

/-- Substring test (needle occurs in hay), used to state what a message
does and does not report. -/
def listStartsWith : List Char → List Char → Bool
  | _, [] => true
  | [], _ :: _ => false
  | h :: hs, n :: ns => h == n && listStartsWith hs ns

def listContainsSub : List Char → List Char → Bool
  | [], needle => listStartsWith [] needle
  | hay@(_ :: t), needle => listStartsWith hay needle || listContainsSub t needle

def strContainsSub (hay needle : String) : Bool :=
  listContainsSub hay.data needle.data

/-  Helper lemmas shared by the claim theorems below.  -/

theorem foldl_append_optToList {α β : Type} (f : α → Option β) :
    ∀ (l : List α) (init : List β),
      l.foldl (fun acc e => acc ++ (f e).toList) init = init ++ l.filterMap f := by
  intro l
  induction l with
  | nil => intro init; simp
  | cons h t ih =>
    intro init
    simp only [List.foldl_cons, List.filterMap_cons]
    cases hf : f h with
    | none => simp [ih]
    | some b => simp [ih]

theorem foldl_append_map {α β : Type} (g : α → β) :
    ∀ (l : List α) (init : List β),
      l.foldl (fun acc e => acc ++ [g e]) init = init ++ l.map g := by
  intro l
  induction l with
  | nil => intro init; simp
  | cons h t ih => intro init; simp [ih]

theorem extractToolUses_eq_filterMap (entries : List Json) :
    extractToolUses entries = entries.filterMap toolUseOfEntry := by
  have h := foldl_append_optToList toolUseOfEntry entries []
  rw [List.nil_append] at h
  exact h

theorem tool_results_eq_map (tools : List Tool) (tool_uses : List ToolUse) :
    tool_results tools tool_uses = tool_uses.map (tool_result_line tools) := by
  have h := foldl_append_map (tool_result_line tools) tool_uses []
  rw [List.nil_append] at h
  exact h

/-- execute_tool on a name registered by no tool in the catalog. -/
theorem execute_tool_not_found (tools : List Tool) (tu : ToolUse) (name : String)
    (hname : tu.name = Json.str name) (hreg : ∀ t ∈ tools, t.name ≠ name) :
    execute_tool tools tu =
      .error ("Tool \x27" ++ name ++ "\x27 not found in agent\x27s tool list") := by
  have hfind : tools.find? (fun t => jEqStr tu.name t.name) = none := by
    rw [List.find?_eq_none]
    intro t ht
    have := hreg t ht
    simp [jEqStr, hname]
    intro hc
    exact absurd hc.symm this
  simp only [execute_tool]
  rw [hfind]
  simp [hname, pyStr]

/-- C1: for the spec, _parse_response is total and never raises; the code
has a slip: when the selected tool_uses / tool_calls value is a truthy
non-iterable (here the number 5), the `for entry in tool_entries` loop
raises TypeError, which no handler on the path catches. -/
theorem c1_parse_response_raises_on_noniterable_entries :
    parse_response "\x7b\"type\": \"tool_use\", \"tool_uses\": 5\x7d" =
      .error "\x27int\x27 object is not iterable" := rfl

/-- C3 counterexample: the not-found failure message the code produces is
"Tool '<name>' not found in agent's tool list" and does not contain the
claimed text "tool '<name>' not found" (the case differs). -/
theorem c3_counterexample :
    execute_tool [] ⟨Json.str "x", Json.obj .nil, false⟩ =
      .error "Tool \x27x\x27 not found in agent\x27s tool list" ∧
    strContainsSub "Tool \x27x\x27 not found in agent\x27s tool list" "tool \x27x\x27 not found" = false :=
  ⟨rfl, rfl⟩

/-- C3 (amended): an invocation whose name (an exact, case-sensitive
string comparison) matches no tool in the catalog yields a failure result
carrying the message "Tool '<name>' not found in agent's tool list"
rather than an exception escaping the orchestration boundary, and the
per-invocation results line is "<toolName>: Error - <errorMessage>". -/
theorem c3_unregistered_name_failure (tools : List Tool) (tu : ToolUse) (name : String)
    (hname : tu.name = Json.str name) (hreg : ∀ t ∈ tools, t.name ≠ name) :
    execute_tool tools tu =
      .error ("Tool \x27" ++ name ++ "\x27 not found in agent\x27s tool list") ∧
    tool_result_line tools tu =
      name ++ ": Error - " ++ ("Tool \x27" ++ name ++ "\x27 not found in agent\x27s tool list") := by
  have h := execute_tool_not_found tools tu name hname hreg
  refine ⟨h, ?_⟩
  simp only [tool_result_line, h, hname]
  simp [pyStr]

theorem c3_witness :
    (Json.str "x" = Json.str "x") ∧
    (∀ t ∈ ([] : List Tool), t.name ≠ "x") ∧
    (execute_tool [] ⟨Json.str "x", Json.obj .nil, false⟩ =
       .error "Tool \x27x\x27 not found in agent\x27s tool list" ∧
     tool_result_line [] ⟨Json.str "x", Json.obj .nil, false⟩ =
       "x: Error - Tool \x27x\x27 not found in agent\x27s tool list") :=
  ⟨rfl, by simp,
   c3_unregistered_name_failure [] ⟨Json.str "x", Json.obj .nil, false⟩ "x" rfl (by simp)⟩

/-- C4 counterexample: run with a lone System message (no User message)
does append the incoming messages to the history before rejecting, so
after the call the history is not the unchanged empty list the
reject-then-append ordering of the claim implies. -/
theorem c4_counterexample :
    (Agent.run [] (fun _ => Except.ok "\x7b\"type\":\"text\",\"text\":\"hi\"\x7d")
        [] [⟨Role.system, "be nice", none⟩] 10).conversation_history =
      [⟨Role.system, "be nice", none⟩] ∧
    ([(⟨Role.system, "be nice", none⟩ : Message)] ≠ ([] : List Message)) :=
  ⟨rfl, by decide⟩

/-- C4 (amended): when the incoming messages contain no User-role message,
run makes no provider call and returns the fixed apology reply; the
incoming messages are appended to the conversation history first, and the
rejection happens after that append (append is step 1, rejection step 2). -/
theorem c4_no_user_messages (tools : List Tool) (gen : List Message → Except String String)
    (history messages : List Message) (max_iterations : Nat)
    (h : ∀ m ∈ messages, m.role ≠ Role.user) :
    Agent.run tools gen history messages max_iterations =
      ⟨history ++ messages, 0,
       .msg ⟨Role.assistant, "I didn\x27t receive any user messages.", none⟩⟩ := by
  have hany : messages.any (fun m => decide (m.role = Role.user)) = false := by
    simp only [List.any_eq_false, decide_eq_true_eq]
    exact h
  simp [Agent.run, hany]

theorem c4_witness :
    (∀ m ∈ [(⟨Role.system, "s", none⟩ : Message)], m.role ≠ Role.user) ∧
    Agent.run [] (fun _ => Except.ok "ignored") [] [⟨Role.system, "s", none⟩] 10 =
      ⟨[] ++ [⟨Role.system, "s", none⟩], 0,
       .msg ⟨Role.assistant, "I didn\x27t receive any user messages.", none⟩⟩ :=
  ⟨by decide,
   c4_no_user_messages [] (fun _ => Except.ok "ignored") [] [⟨Role.system, "s", none⟩] 10 (by decide)⟩

/-- C10: whenever a tool is executed through Agent.execute_tool, it was
resolved from the catalog by equality with the invocation's name, so the
name-mismatch guard inside Tool.execute never fires: execute reduces to
its post-guard body. -/
theorem c10_mismatch_guard_unreachable (tools : List Tool) (tu : ToolUse) (t : Tool)
    (hfind : tools.find? (fun t0 => jEqStr tu.name t0.name) = some t) :
    Tool.execute t tu = Tool.executeBody t tu ∧
    execute_tool tools tu = Tool.executeBody t tu := by
  have hp : jEqStr tu.name t.name = true := by
    have h0 := List.find?_some hfind
    simpa using h0
  refine ⟨?_, ?_⟩
  · simp [Tool.execute, hp]
  · simp [execute_tool, hfind, Tool.execute, hp]

def c10Tool : Tool := ⟨"t", "d", some (fun _ => Except.ok (.plain "r"))⟩

theorem c10_witness :
    ([c10Tool].find? (fun t0 => jEqStr (Json.str "t") t0.name) = some c10Tool) ∧
    (Tool.execute c10Tool ⟨Json.str "t", Json.obj .nil, false⟩ =
       Tool.executeBody c10Tool ⟨Json.str "t", Json.obj .nil, false⟩ ∧
     execute_tool [c10Tool] ⟨Json.str "t", Json.obj .nil, false⟩ =
       Tool.executeBody c10Tool ⟨Json.str "t", Json.obj .nil, false⟩) :=
  ⟨rfl, c10_mismatch_guard_unreachable [c10Tool] ⟨Json.str "t", Json.obj .nil, false⟩ c10Tool rfl⟩

/-- C6: the two-stage loading discipline of _parse_response.  The first
conjunct: a successful strict parse of the whole stripped text wins.  The
second: when the strict parse fails, the data comes from parsing the
brace-delimited substring (first opening brace, greedily to the last
closing brace), when there is one.  The third: whenever no JSON object
results from either stage, the parser returns the stripped raw text.
Finally the two concrete behaviours named by the claim. -/
theorem c6_two_stage_json_loading :
    (∀ raw d, tryLoadJson (pyStrip raw) = some d → obtainedData raw = some d) ∧
    (∀ raw, tryLoadJson (pyStrip raw) = none →
      obtainedData raw = (braceSubstring raw).bind tryLoadJson) ∧
    (∀ raw, (∀ d, obtainedData raw = some d → d.isObjB = false) →
      parse_response raw = .ok (.text (pyStrip raw))) ∧
    parse_response "not json at all" = .ok (.text "not json at all") ∧
    parse_response "Sure! \x7b\"type\":\"text\",\"text\":\"ok\"\x7d" = .ok (.text "ok") := by
  refine ⟨?_, ?_, ?_, rfl, rfl⟩
  · intro raw d h
    simp [obtainedData, h]
  · intro raw h
    simp only [obtainedData, h]
    cases braceSubstring raw with
    | none => simp
    | some sub => simp
  · intro raw h
    cases hd : obtainedData raw with
    | none => simp [parse_response, hd]
    | some d =>
      have hflat := h d hd
      cases d with
      | obj fs => simp [Json.isObjB] at hflat
      | null => simp [parse_response, hd]
      | bool b => simp [parse_response, hd]
      | num n => simp [parse_response, hd]
      | str s => simp [parse_response, hd]
      | arr xs => simp [parse_response, hd]

theorem c6_witness :
    (∀ d, obtainedData "plain text" = some d → Json.isObjB d = false) ∧
    parse_response "plain text" = .ok (.text "plain text") := by
  have h : ∀ d, obtainedData "plain text" = some d → Json.isObjB d = false := by
    intro d hh
    rw [show obtainedData "plain text" = (none : Option Json) from rfl] at hh
    exact Option.noConfusion hh
  exact ⟨h, c6_two_stage_json_loading.2.2.1 "plain text" h⟩

/-- The claim's reading of the response-type discriminator: the value of
key "type" when that is not null (a missing key reads as null through
dict.get), else the value of key "response_type".  Modelled from the
claim's words ("first non-null wins") to compare against the code's
truthiness-based selection. -/
def discFirstNonNull (fs : JFields) : Option Json :=
  match fs.get "type" with
  | some Json.null => fs.get "response_type"
  | some v => some v
  | none => fs.get "response_type"

/-- When the first-non-null discriminator is a non-empty string, the
code's truthiness-based `data.get("type") or data.get("response_type")`
selects the same value. -/
theorem pyOrJ_of_discFirstNonNull (fs : JFields) (s : String) (hs : (s == "") = false)
    (h : discFirstNonNull fs = some (Json.str s)) :
    pyOrJ (fs.get "type") (fs.get "response_type") = some (Json.str s) := by
  unfold discFirstNonNull at h
  cases hg : fs.get "type" with
  | none =>
    rw [hg] at h
    have h2 : fs.get "response_type" = some (Json.str s) := h
    simpa [pyOrJ] using h2
  | some v =>
    rw [hg] at h
    cases v with
    | null =>
      have h2 : fs.get "response_type" = some (Json.str s) := h
      simpa [pyOrJ, jTruthy] using h2
    | str t =>
      have h2 : (some (Json.str t) : Option Json) = some (Json.str s) := h
      have h3 : t = s := by
        injection h2 with h4
        injection h4
      rw [h3]
      simp [pyOrJ, jTruthy, hs]
    | bool b =>
      have h2 : (some (Json.bool b) : Option Json) = some (Json.str s) := h
      simp at h2
    | num n =>
      have h2 : (some (Json.num n) : Option Json) = some (Json.str s) := h
      simp at h2
    | arr xs =>
      have h2 : (some (Json.arr xs) : Option Json) = some (Json.str s) := h
      simp at h2
    | obj fs2 =>
      have h2 : (some (Json.obj fs2) : Option Json) = some (Json.str s) := h
      simp at h2

/-- C7: a parsed JSON object whose discriminator (key "type" or
"response_type", first non-null wins) is "text" parses to a Text response
whose value is the str() of the object's "text" field, defaulting to the
empty string when the key is absent, then stripped; and the claim's
round-trip example. -/
theorem c7_text_discriminator :
    (∀ raw fs, obtainedData raw = some (.obj fs) →
      discFirstNonNull fs = some (Json.str "text") →
      parse_response raw =
        .ok (.text (pyStrip (pyStr ((fs.get "text").getD (.str "")))))) ∧
    parse_response "\x7b\"type\":\"text\",\"text\":\"hi\"\x7d" = .ok (.text "hi") := by
  refine ⟨?_, rfl⟩
  intro raw fs hobt hdisc
  have hor := pyOrJ_of_discFirstNonNull fs "text" (by decide) hdisc
  simp [parse_response, hobt, hor, isStrVal]

theorem c7_witness :
    (obtainedData "\x7b\"response_type\":\"text\",\"text\":\"ok\"\x7d" =
       some (.obj (.cons "response_type" (Json.str "text") (.cons "text" (Json.str "ok") .nil)))) ∧
    (discFirstNonNull (.cons "response_type" (Json.str "text") (.cons "text" (Json.str "ok") .nil)) =
       some (Json.str "text")) ∧
    parse_response "\x7b\"response_type\":\"text\",\"text\":\"ok\"\x7d" =
      .ok (.text (pyStrip (pyStr
        (((JFields.cons "response_type" (Json.str "text") (.cons "text" (Json.str "ok") .nil)).get "text").getD (.str ""))))) :=
  ⟨rfl, rfl,
   c7_text_discriminator.1 "\x7b\"response_type\":\"text\",\"text\":\"ok\"\x7d"
     (.cons "response_type" (Json.str "text") (.cons "text" (Json.str "ok") .nil)) rfl rfl⟩

/-- C5 counterexample: a tool discriminator whose entries value is the
number 5 (truthy, so it wins the or-chain) should, per the claim, have
every entry dropped and fall back to the trimmed raw text; the code
instead raises TypeError from `for entry in tool_entries`. -/
theorem c5_counterexample :
    parse_response "\x7b\"type\":\"tool\",\"tool_uses\":5\x7d" =
      .error "\x27int\x27 object is not iterable" ∧
    parse_response "\x7b\"type\":\"tool\",\"tool_uses\":5\x7d" ≠
      .ok (.text (pyStrip "\x7b\"type\":\"tool\",\"tool_uses\":5\x7d")) := by
  refine ⟨rfl, ?_⟩
  intro h
  rw [show parse_response "\x7b\"type\":\"tool\",\"tool_uses\":5\x7d" =
    (.error "\x27int\x27 object is not iterable" : Except String AssistantResponse) from rfl] at h
  exact Except.noConfusion h

/-- C5 (amended): for a parsed JSON object whose discriminator (first
non-null of "type" / "response_type") is "tool_use" or "tool", and whose
selected entries value - the first truthy of tool_uses, tool_calls,
defaulting to an empty list - is a JSON array (the documented wire
shape; a truthy non-iterable value raises instead, see the
counterexample), every array entry that is an object and has a truthy
"name" yields one invocation, with params the first truthy of "params" /
"arguments" defaulting to an empty mapping and the streaming flag
defaulting to false; other entries are dropped; a non-empty invocation
list gives the ToolUse response and an empty one falls back to the
trimmed raw text.  The filterMap equation makes the one-invocation-per-
accepted-entry, in-order reading explicit, and the final conjunct is the
claim's concrete example. -/
theorem c5_tool_use_extraction :
    (∀ raw fs l,
      obtainedData raw = some (.obj fs) →
      (discFirstNonNull fs = some (Json.str "tool_use") ∨
       discFirstNonNull fs = some (Json.str "tool")) →
      selectedEntries fs = Json.arr l →
      (parse_response raw =
        (if (extractToolUses l.toList).isEmpty then .ok (.text (pyStrip raw))
         else .ok (.toolUse (extractToolUses l.toList))) ∧
       extractToolUses l.toList = l.toList.filterMap toolUseOfEntry)) ∧
    parse_response "\x7b\"type\":\"tool_use\",\"tool_uses\":[\x7b\"name\":\"t\",\"params\":\x7b\"a\":\"1\"\x7d\x7d]\x7d" =
      .ok (.toolUse [⟨Json.str "t", Json.obj (.cons "a" (Json.str "1") .nil), false⟩]) := by
  refine ⟨?_, rfl⟩
  intro raw fs l hobt hdisc hsel
  refine ⟨?_, extractToolUses_eq_filterMap l.toList⟩
  have hor : pyOrJ (fs.get "type") (fs.get "response_type") = some (Json.str "tool_use") ∨
      pyOrJ (fs.get "type") (fs.get "response_type") = some (Json.str "tool") := by
    cases hdisc with
    | inl h => exact Or.inl (pyOrJ_of_discFirstNonNull fs "tool_use" (by decide) h)
    | inr h => exact Or.inr (pyOrJ_of_discFirstNonNull fs "tool" (by decide) h)
  cases hor with
  | inl h => simp [parse_response, hobt, h, isStrVal, hsel, pyIter]
  | inr h => simp [parse_response, hobt, h, isStrVal, hsel, pyIter]

theorem c5_witness :
    (obtainedData "\x7b\"type\":\"tool\",\"tool_calls\":[\x7b\"name\":\"t\"\x7d]\x7d" =
       some (.obj (.cons "type" (Json.str "tool")
         (.cons "tool_calls" (Json.arr (.cons (Json.obj (.cons "name" (Json.str "t") .nil)) .nil)) .nil)))) ∧
    (selectedEntries (.cons "type" (Json.str "tool")
       (.cons "tool_calls" (Json.arr (.cons (Json.obj (.cons "name" (Json.str "t") .nil)) .nil)) .nil)) =
     Json.arr (.cons (Json.obj (.cons "name" (Json.str "t") .nil)) .nil)) ∧
    (parse_response "\x7b\"type\":\"tool\",\"tool_calls\":[\x7b\"name\":\"t\"\x7d]\x7d" =
      (if (extractToolUses (JList.cons (Json.obj (.cons "name" (Json.str "t") .nil)) .nil).toList).isEmpty
       then .ok (.text (pyStrip "\x7b\"type\":\"tool\",\"tool_calls\":[\x7b\"name\":\"t\"\x7d]\x7d"))
       else .ok (.toolUse (extractToolUses (JList.cons (Json.obj (.cons "name" (Json.str "t") .nil)) .nil).toList))) ∧
     extractToolUses (JList.cons (Json.obj (.cons "name" (Json.str "t") .nil)) .nil).toList =
       (JList.cons (Json.obj (.cons "name" (Json.str "t") .nil)) .nil).toList.filterMap toolUseOfEntry) :=
  ⟨rfl, rfl,
   c5_tool_use_extraction.1 "\x7b\"type\":\"tool\",\"tool_calls\":[\x7b\"name\":\"t\"\x7d]\x7d"
     (.cons "type" (Json.str "tool")
       (.cons "tool_calls" (Json.arr (.cons (Json.obj (.cons "name" (Json.str "t") .nil)) .nil)) .nil))
     (.cons (Json.obj (.cons "name" (Json.str "t") .nil)) .nil)
     rfl (Or.inr rfl) rfl⟩

/-- The synthetic assistant message appended for a turn whose single
invocation names an unregistered tool. -/
def notFoundResultsMessage (name : String) : Message :=
  ⟨Role.assistant,
   "Tool execution results:\n" ++
     (name ++ ": Error - " ++ ("Tool \x27" ++ name ++ "\x27 not found in agent\x27s tool list")),
   none⟩

theorem intercalate_singleton (x : String) : String.intercalate "\n" [x] = x := rfl

/-- The loop of Agent.run when the provider always answers with the same
single unregistered-tool invocation: every remaining iteration appends
one not-found results message and the cap message ends the run. -/
theorem run_loop_unregistered (tools : List Tool) (gen : List Message → Except String String)
    (max_iterations : Nat) (raw : String) (tu : ToolUse) (name : String)
    (hgen : ∀ h, gen h = .ok raw)
    (hparse : parse_response raw = .ok (.toolUse [tu]))
    (hname : tu.name = Json.str name)
    (hreg : ∀ t ∈ tools, t.name ≠ name) :
    ∀ (fuel : Nat) (history : List Message) (calls : Nat), history ≠ [] →
      run_loop tools gen max_iterations history calls fuel =
        ⟨history ++ List.replicate fuel (notFoundResultsMessage name) ++
           [max_iterations_message max_iterations],
         calls + fuel, .msg (max_iterations_message max_iterations)⟩ := by
  intro fuel
  induction fuel with
  | zero =>
    intro history calls hne
    simp [run_loop]
  | succ n ih =>
    intro history calls hne
    have hlast : ∃ m, history.getLast? = some m := by
      cases hl : history.getLast? with
      | none => exact absurd (List.getLast?_eq_none_iff.mp hl) hne
      | some m => exact ⟨m, rfl⟩
    obtain ⟨m, hm⟩ := hlast
    have hgenh : generate_response_from_history gen history = .ok (.toolUse [tu]) := by
      simp [generate_response_from_history, hm, hgen, hparse]
    have hempty : history.isEmpty = false := by
      cases history with
      | nil => exact absurd rfl hne
      | cons a t => rfl
    have hline : tool_result_line tools tu =
        name ++ ": Error - " ++ ("Tool \x27" ++ name ++ "\x27 not found in agent\x27s tool list") := by
      have h := execute_tool_not_found tools tu name hname hreg
      simp only [tool_result_line, h, hname]
      simp [pyStr]
    have hmsg : (⟨Role.assistant,
        "Tool execution results:\n" ++ String.intercalate "\n" (tool_results tools [tu]),
        none⟩ : Message) = notFoundResultsMessage name := by
      rw [tool_results_eq_map, List.map_singleton, intercalate_singleton, hline]
      rfl
    simp only [run_loop, hgenh, hempty, Bool.false_eq_true, if_false]
    rw [hmsg, ih (history ++ [notFoundResultsMessage name]) (calls + 1) (by simp)]
    simp only [RunOutcome.mk.injEq, List.append_assoc, List.singleton_append,
      List.replicate_succ]
    refine ⟨trivial, by omega, trivial⟩

/-- C2 counterexample: with one user message, no registered tools, a cap
of one iteration and a provider that always requests tool "x", the single
synthetic results message carries "Tool 'x' not found in agent's tool
list" and does not contain the claimed text "tool 'x' not found" (the
case differs and the code's message has a longer tail). -/
theorem c2_counterexample :
    (Agent.run [] (fun _ => Except.ok "\x7b\"type\":\"tool_use\",\"tool_uses\":[\x7b\"name\":\"x\"\x7d]\x7d")
        [] [⟨Role.user, "hi", none⟩] 1).conversation_history =
      [⟨Role.user, "hi", none⟩, notFoundResultsMessage "x", max_iterations_message 1] ∧
    strContainsSub (notFoundResultsMessage "x").content "tool \x27x\x27 not found" = false :=
  ⟨rfl, rfl⟩

/-- C2 (amended): for every positive cap, when the provider on every call
returns the same response parsing to a single invocation of a name
registered by no tool, run makes exactly maxIterations provider calls,
appends exactly maxIterations synthetic "Tool execution results" messages
- each reporting "Tool '<name>' not found in agent's tool list" - and
returns the cap-reached message after appending it. -/
theorem c2_unregistered_tool_iteration_cap (tools : List Tool)
    (gen : List Message → Except String String) (history messages : List Message)
    (raw : String) (tu : ToolUse) (name : String) (max_iterations : Nat)
    (hpos : 0 < max_iterations)
    (huser : ∃ m ∈ messages, m.role = Role.user)
    (hgen : ∀ h, gen h = .ok raw)
    (hparse : parse_response raw = .ok (.toolUse [tu]))
    (hname : tu.name = Json.str name)
    (hreg : ∀ t ∈ tools, t.name ≠ name) :
    Agent.run tools gen history messages max_iterations =
      ⟨(history ++ messages) ++ List.replicate max_iterations (notFoundResultsMessage name) ++
         [max_iterations_message max_iterations],
       max_iterations, .msg (max_iterations_message max_iterations)⟩ := by
  obtain ⟨m, hmem, hrole⟩ := huser
  have hany : messages.any (fun m => decide (m.role = Role.user)) = true := by
    rw [List.any_eq_true]
    exact ⟨m, hmem, by simp [hrole]⟩
  have hne : history ++ messages ≠ [] := by
    intro h
    rw [List.append_eq_nil] at h
    rw [h.2] at hmem
    exact List.not_mem_nil m hmem
  have hrun := run_loop_unregistered tools gen max_iterations raw tu name hgen hparse hname hreg
    max_iterations (history ++ messages) 0 hne
  simp only [Agent.run, hany, if_true]
  rw [hrun]
  simp

theorem c2_witness :
    parse_response "\x7b\"type\":\"tool_use\",\"tool_uses\":[\x7b\"name\":\"x\"\x7d]\x7d" =
      .ok (.toolUse [⟨Json.str "x", Json.obj .nil, false⟩]) ∧
    (∀ t ∈ ([] : List Tool), t.name ≠ "x") ∧
    Agent.run [] (fun _ => Except.ok "\x7b\"type\":\"tool_use\",\"tool_uses\":[\x7b\"name\":\"x\"\x7d]\x7d")
        [] [⟨Role.user, "hi", none⟩] 2 =
      ⟨([] ++ [⟨Role.user, "hi", none⟩]) ++ List.replicate 2 (notFoundResultsMessage "x") ++
         [max_iterations_message 2],
       2, .msg (max_iterations_message 2)⟩ :=
  ⟨rfl, by simp,
   c2_unregistered_tool_iteration_cap [] _ [] [⟨Role.user, "hi", none⟩]
     "\x7b\"type\":\"tool_use\",\"tool_uses\":[\x7b\"name\":\"x\"\x7d]\x7d"
     ⟨Json.str "x", Json.obj .nil, false⟩ "x" 2 (by decide)
     ⟨⟨Role.user, "hi", none⟩, by simp, rfl⟩ (fun _ => rfl) rfl rfl (by simp)⟩

/-- C8: within one tool-use turn, the per-invocation results list equals
the map of the single-invocation line function over the parsed invocation
list - so lines appear in invocation order, each invocation contributes
exactly one entry, and every entry depends only on its own invocation
(a failing sibling cannot abort or change it); and one tool-use step of
the loop appends exactly one synthetic message built from that list after
the fixed header, then continues. -/
theorem c8_tool_turn_order_isolation :
    (∀ (tools : List Tool) (tool_uses : List ToolUse),
      tool_results tools tool_uses = tool_uses.map (tool_result_line tools)) ∧
    (∀ (tools : List Tool) (gen : List Message → Except String String)
       (max_iterations : Nat) (history : List Message) (calls fuel : Nat)
       (raw : String) (tool_uses : List ToolUse),
      history ≠ [] →
      gen history = .ok raw →
      parse_response raw = .ok (.toolUse tool_uses) →
      run_loop tools gen max_iterations history calls (fuel + 1) =
        run_loop tools gen max_iterations
          (history ++ [⟨Role.assistant,
             "Tool execution results:\n" ++
               String.intercalate "\n" (tool_uses.map (tool_result_line tools)), none⟩])
          (calls + 1) fuel) := by
  refine ⟨tool_results_eq_map, ?_⟩
  intro tools gen max_iterations history calls fuel raw tool_uses hne hgen hparse
  have hlast : ∃ m, history.getLast? = some m := by
    cases hl : history.getLast? with
    | none => exact absurd (List.getLast?_eq_none_iff.mp hl) hne
    | some m => exact ⟨m, rfl⟩
  obtain ⟨m, hm⟩ := hlast
  have hgenh : generate_response_from_history gen history = .ok (.toolUse tool_uses) := by
    simp [generate_response_from_history, hm, hgen, hparse]
  have hempty : history.isEmpty = false := by
    cases history with
    | nil => exact absurd rfl hne
    | cons a t => rfl
  simp only [run_loop, hgenh, hempty, Bool.false_eq_true, if_false, tool_results_eq_map]

def c8EchoTool : Tool := ⟨"echo", "", some (fun p => Except.ok (.jsonLike p))⟩

theorem c8_witness :
    ([(⟨Role.user, "go", none⟩ : Message)] ≠ []) ∧
    (parse_response "\x7b\"type\":\"tool\",\"tool_calls\":[\x7b\"name\":\"missing\"\x7d,\x7b\"name\":\"echo\"\x7d]\x7d" =
      .ok (.toolUse [⟨Json.str "missing", Json.obj .nil, false⟩, ⟨Json.str "echo", Json.obj .nil, false⟩])) ∧
    (tool_results [c8EchoTool]
        [⟨Json.str "missing", Json.obj .nil, false⟩, ⟨Json.str "echo", Json.obj .nil, false⟩] =
      [⟨Json.str "missing", Json.obj .nil, false⟩,
       (⟨Json.str "echo", Json.obj .nil, false⟩ : ToolUse)].map (tool_result_line [c8EchoTool])) ∧
    run_loop [c8EchoTool]
        (fun _ => Except.ok "\x7b\"type\":\"tool\",\"tool_calls\":[\x7b\"name\":\"missing\"\x7d,\x7b\"name\":\"echo\"\x7d]\x7d")
        5 [⟨Role.user, "go", none⟩] 0 (3 + 1) =
      run_loop [c8EchoTool]
        (fun _ => Except.ok "\x7b\"type\":\"tool\",\"tool_calls\":[\x7b\"name\":\"missing\"\x7d,\x7b\"name\":\"echo\"\x7d]\x7d")
        5 ([⟨Role.user, "go", none⟩] ++ [⟨Role.assistant,
           "Tool execution results:\n" ++
             String.intercalate "\n"
               ([⟨Json.str "missing", Json.obj .nil, false⟩,
                 (⟨Json.str "echo", Json.obj .nil, false⟩ : ToolUse)].map (tool_result_line [c8EchoTool])),
           none⟩])
        (0 + 1) 3 :=
  ⟨by decide, rfl,
   c8_tool_turn_order_isolation.1 [c8EchoTool]
     [⟨Json.str "missing", Json.obj .nil, false⟩, ⟨Json.str "echo", Json.obj .nil, false⟩],
   c8_tool_turn_order_isolation.2 [c8EchoTool]
     (fun _ => Except.ok "\x7b\"type\":\"tool\",\"tool_calls\":[\x7b\"name\":\"missing\"\x7d,\x7b\"name\":\"echo\"\x7d]\x7d")
     5 [⟨Role.user, "go", none⟩] 0 3
     "\x7b\"type\":\"tool\",\"tool_calls\":[\x7b\"name\":\"missing\"\x7d,\x7b\"name\":\"echo\"\x7d]\x7d"
     [⟨Json.str "missing", Json.obj .nil, false⟩, ⟨Json.str "echo", Json.obj .nil, false⟩]
     (by decide) rfl rfl⟩

/-- Every pass through the loop only appends to the history. -/
theorem run_loop_history_extends (tools : List Tool) (gen : List Message → Except String String)
    (max_iterations : Nat) :
    ∀ (fuel : Nat) (history : List Message) (calls : Nat),
      ∃ t, (run_loop tools gen max_iterations history calls fuel).conversation_history =
        history ++ t := by
  intro fuel
  induction fuel with
  | zero =>
    intro history calls
    exact ⟨[max_iterations_message max_iterations], rfl⟩
  | succ n ih =>
    intro history calls
    cases hg : generate_response_from_history gen history with
    | error e =>
      refine ⟨[], ?_⟩
      simp [run_loop, hg]
    | ok r =>
      cases r with
      | text v =>
        refine ⟨[⟨Role.assistant, v, none⟩], ?_⟩
        simp [run_loop, hg]
      | toolUse us =>
        obtain ⟨t, ht⟩ := ih
          (history ++ [⟨Role.assistant,
            "Tool execution results:\n" ++ String.intercalate "\n" (tool_results tools us), none⟩])
          (if history.isEmpty then calls else calls + 1)
        refine ⟨⟨Role.assistant,
          "Tool execution results:\n" ++ String.intercalate "\n" (tool_results tools us), none⟩ :: t, ?_⟩
        simp only [run_loop, hg]
        rw [ht]
        simp

/-- C9: a call to run only ever appends to the conversation history: the
history after the call extends the history before it, every previously
stored message unchanged and in place, whether the call ends by text, by
the iteration cap, by the no-user-message rejection, or by an escaping
parse exception. -/
theorem c9_history_append_only (tools : List Tool) (gen : List Message → Except String String)
    (history messages : List Message) (max_iterations : Nat) :
    ∃ t, (Agent.run tools gen history messages max_iterations).conversation_history =
      history ++ t := by
  cases hany : messages.any (fun m => decide (m.role = Role.user)) with
  | false =>
    refine ⟨messages, ?_⟩
    simp [Agent.run, hany]
  | true =>
    obtain ⟨t, ht⟩ := run_loop_history_extends tools gen max_iterations max_iterations
      (history ++ messages) 0
    refine ⟨messages ++ t, ?_⟩
    simp only [Agent.run, hany, if_true]
    rw [ht, List.append_assoc]
